import Mathlib

/-!
Verification of the expense-tracker data-access layer
(`DatabaseManager` in `src/SourceCode.py`).

Modelling conventions:
* A SQLite database file is a `DB`: the `expenses` table as a list of rows
  in rowid (insertion) order, the `categories` table as a list of distinct
  names in insertion order, and the AUTOINCREMENT counter `nextId`.
* SQLite `REAL` amounts are modelled exactly as rationals (`ℚ`);
  floating-point rounding is outside the model.
* The stored `date` TEXT column is, per the data model, always a canonical
  `YYYY-MM-DD` string; we represent it by its `(year, month, day)` triple.
  BINARY text comparison of canonical date strings coincides with
  lexicographic comparison of the triples (`dateLt`).
* `ORDER BY` is modelled as a stable sort on the given key, which is the
  observed SQLite behaviour for these unindexed full-scan queries
  (rows enter the sorter in rowid order).
* The filesystem holding the database files is an association list from
  file name to `DB`; the `Manager` mirrors the mutable fields of the
  Python `DatabaseManager` object.
-/

/-- A calendar date, standing for the canonical `YYYY-MM-DD` text stored in
the `date` column. -/
structure Date where
  year : Nat
  month : Nat
  day : Nat
deriving DecidableEq

/-- The data-model invariant on dates: a valid calendar date representable
in the `YYYY-MM-DD` format (4-digit year). -/
def Date.okay (d : Date) : Prop :=
  1 ≤ d.year ∧ d.year ≤ 9999 ∧ 1 ≤ d.month ∧ d.month ≤ 12 ∧ 1 ≤ d.day ∧ d.day ≤ 31

instance (d : Date) : Decidable d.okay := by
  unfold Date.okay; infer_instance

/-- Strict comparison of dates; equals SQLite BINARY `<` on the canonical
`YYYY-MM-DD` strings. -/
def dateLt (d1 d2 : Date) : Bool :=
  decide (d1.year < d2.year ∨ (d1.year = d2.year ∧
    (d1.month < d2.month ∨ (d1.month = d2.month ∧ d1.day < d2.day))))

/-- One row of the `expenses` table. -/
structure Expense where
  id : Nat
  description : String
  amount : ℚ
  category : String
  date : Date
deriving DecidableEq

/-- Contents of one database file: both tables plus the AUTOINCREMENT
counter for `expenses.id`. -/
structure DB where
  expenses : List Expense
  categories : List String
  nextId : Nat
deriving DecidableEq

/-- A freshly created database file after `create_table` ran on it:
both tables empty, ids start at 1. -/
def DB.empty : DB := ⟨[], [], 1⟩

/- ### A stable insertion sort, modelling SQLite ORDER BY

`sortBy lt l` sorts `l` so that `lt` never holds from an earlier to a later
element, keeping the original relative order of elements the comparator
does not separate.  Rows reach the SQLite sorter in rowid order for the
full-scan queries at hand, so this models their result order. -/

def insertSorted {α : Type} (lt : α → α → Bool) (e : α) : List α → List α
  | [] => [e]
  | x :: xs => if lt e x then x :: insertSorted lt e xs else e :: x :: xs

def sortBy {α : Type} (lt : α → α → Bool) : List α → List α
  | [] => []
  | x :: xs => insertSorted lt x (sortBy lt xs)

theorem perm_insertSorted {α : Type} (lt : α → α → Bool) (e : α) (l : List α) :
    List.Perm (insertSorted lt e l) (e :: l) := by
  induction l with
  | nil => simp [insertSorted]
  | cons x xs ih =>
    by_cases h : lt e x
    · simp only [insertSorted, h, if_pos]
      exact List.Perm.trans (List.Perm.cons x ih) (List.Perm.swap e x xs)
    · simp [insertSorted, h]

theorem perm_sortBy {α : Type} (lt : α → α → Bool) (l : List α) :
    List.Perm (sortBy lt l) l := by
  induction l with
  | nil => simp [sortBy]
  | cons x xs ih =>
    exact List.Perm.trans (perm_insertSorted lt x (sortBy lt xs)) (List.Perm.cons x ih)

theorem mem_sortBy {α : Type} (lt : α → α → Bool) (l : List α) (a : α) :
    a ∈ sortBy lt l ↔ a ∈ l :=
  (perm_sortBy lt l).mem_iff

theorem pairwise_insertSorted {α : Type} (lt : α → α → Bool)
    (hasym : ∀ a b, lt a b = true → lt b a = false)
    (hlin : ∀ a b c, lt a c = true → lt a b = true ∨ lt b c = true)
    (e : α) (l : List α) (h : l.Pairwise (fun a b => lt a b = false)) :
    (insertSorted lt e l).Pairwise (fun a b => lt a b = false) := by
  induction l with
  | nil => simp [insertSorted]
  | cons x xs ih =>
    rcases List.pairwise_cons.mp h with ⟨hx, hxs⟩
    by_cases hex : lt e x
    · simp only [insertSorted, hex, if_pos]
      refine List.pairwise_cons.mpr ⟨?_, ih hxs⟩
      intro y hy
      rcases List.mem_cons.mp ((perm_insertSorted lt e xs).mem_iff.mp hy) with hy | hy
      · rw [hy]; exact hasym e x hex
      · exact hx y hy
    · have hex' : lt e x = false := by
        rcases Bool.eq_false_or_eq_true (lt e x) with ht | hf
        · exact absurd ht hex
        · exact hf
      simp only [insertSorted, hex', if_neg, Bool.false_eq_true, not_false_iff]
      refine List.pairwise_cons.mpr ⟨?_, h⟩
      intro y hy
      rcases List.mem_cons.mp hy with hy | hy
      · rw [hy]; exact hex'
      · rcases Bool.eq_false_or_eq_true (lt e y) with ht | hf
        · rcases hlin e x y ht with h1 | h1
          · rw [hex'] at h1; exact absurd h1 (by simp)
          · rw [hx y hy] at h1; exact absurd h1 (by simp)
        · exact hf

theorem pairwise_sortBy {α : Type} (lt : α → α → Bool)
    (hasym : ∀ a b, lt a b = true → lt b a = false)
    (hlin : ∀ a b c, lt a c = true → lt a b = true ∨ lt b c = true)
    (l : List α) :
    (sortBy lt l).Pairwise (fun a b => lt a b = false) := by
  induction l with
  | nil => simp [sortBy]
  | cons x xs ih => exact pairwise_insertSorted lt hasym hlin x (sortBy lt xs) ih

theorem filter_insertSorted {α : Type} (lt : α → α → Bool) (p : α → Bool)
    (hp : ∀ a b, p a = true → p b = true → lt a b = false)
    (e : α) (l : List α) :
    (insertSorted lt e l).filter p =
      if p e then e :: l.filter p else l.filter p := by
  induction l with
  | nil => by_cases hpe : p e <;> simp [insertSorted, List.filter, hpe]
  | cons x xs ih =>
    by_cases hex : lt e x
    · simp only [insertSorted, hex, if_pos]
      by_cases hpe : p e
      · have hpx : p x = false := by
          rcases Bool.eq_false_or_eq_true (p x) with ht | hf
          · rw [hp e x (by simpa using hpe) ht] at hex; exact absurd hex (by simp)
          · exact hf
        simp [List.filter, hpx, ih, hpe]
      · simp only [Bool.not_eq_true] at hpe
        by_cases hpx : p x <;> simp [List.filter, hpx, ih, hpe]
    · simp only [insertSorted, hex, if_neg, Bool.not_eq_true]
      by_cases hpe : p e <;> by_cases hpx : p x <;>
        simp [List.filter, hpe, hpx]

theorem filter_sortBy {α : Type} (lt : α → α → Bool) (p : α → Bool)
    (hp : ∀ a b, p a = true → p b = true → lt a b = false)
    (l : List α) :
    (sortBy lt l).filter p = l.filter p := by
  induction l with
  | nil => rfl
  | cons x xs ih =>
    rw [sortBy, filter_insertSorted lt p hp x (sortBy lt xs)]
    by_cases hpx : p x <;> simp [List.filter, hpx, ih]

/- ### The per-file database operations (the SQL of `DatabaseManager`) -/

/-- `INSERT OR IGNORE INTO categories (name) VALUES (?)`: the UNIQUE
constraint makes the insert a no-op when the name is present. -/
def insertCategory (db : DB) (c : String) : DB :=
  if c ∈ db.categories then db else { db with categories := db.categories ++ [c] }

/-- `add_expense` (src/SourceCode.py:49-63): upserts the category, inserts
the expense row with the next AUTOINCREMENT id, and returns `True`.
Storage I/O errors (the `except` branch) are outside the model. -/
def add_expense (db : DB) (descr : String) (amount : ℚ) (cat : String)
    (dt : Date) : DB × Bool :=
  let db1 := insertCategory db cat
  ({ db1 with
      expenses := db1.expenses ++ [⟨db1.nextId, descr, amount, cat, dt⟩],
      nextId := db1.nextId + 1 }, true)

/-- `delete_expense` (src/SourceCode.py:79-89):
`DELETE FROM expenses WHERE id = ?`, then returns `True`. -/
def delete_expense (db : DB) (eid : Nat) : DB × Bool :=
  ({ db with expenses := db.expenses.filter (fun e => decide (e.id ≠ eid)) }, true)

/-- `update_expense` (src/SourceCode.py:91-106): upserts the category, then
`UPDATE expenses SET ... WHERE id = ?`, and returns `True`. -/
def update_expense (db : DB) (eid : Nat) (descr : String) (amount : ℚ)
    (cat : String) (dt : Date) : DB × Bool :=
  let db1 := insertCategory db cat
  ({ db1 with
      expenses := db1.expenses.map
        (fun e => if e.id = eid then ⟨e.id, descr, amount, cat, dt⟩ else e) }, true)

/-- `load_expenses` (src/SourceCode.py:65-70):
`SELECT * FROM expenses ORDER BY date DESC`. -/
def load_expenses (db : DB) : List Expense :=
  sortBy (fun a b => dateLt a.date b.date) db.expenses

/-- `get_categories` (src/SourceCode.py:72-77):
`SELECT name FROM categories ORDER BY name`. -/
def get_categories (db : DB) : List String :=
  sortBy (fun a b => decide (b < a)) db.categories

/-- `SELECT SUM(amount) FROM expenses`: SQL `SUM` is `NULL` on an empty
table, modelled as `none`. -/
def sqlSumAmount (db : DB) : Option ℚ :=
  if db.expenses.isEmpty then none else some ((db.expenses.map (·.amount)).sum)

/-- `total_expenses` (src/SourceCode.py:108-114): the `SUM` result with the
Python-side `total if total is not None else 0` replacement. -/
def total_expenses (db : DB) : ℚ :=
  (sqlSumAmount db).getD 0

/-- `expenses_by_category` (src/SourceCode.py:116-126):
`SELECT category, SUM(amount) FROM expenses GROUP BY category
ORDER BY total DESC`. One group per distinct category value, sorted by
descending group sum (ties in an unspecified but deterministic order). -/
def expenses_by_category (db : DB) : List (String × ℚ) :=
  let cats := (db.expenses.map (·.category)).dedup
  sortBy (fun p q : String × ℚ => decide (p.2 < q.2))
    (cats.map (fun c =>
      (c, ((db.expenses.filter (fun e => decide (e.category = c))).map (·.amount)).sum)))

/- ### Decimal representations: Python `str` and SQLite `strftime`

`expenses_by_month` filters with `strftime('%Y', date) = str(year)`.
`strftime('%Y', ...)` yields the zero-padded 4-digit year of the stored
canonical date; Python `str(year)` yields the unpadded decimal numeral.
Both are modelled as character lists. -/

/-- The unpadded decimal numeral of `n`, as produced by Python `str` on a
nonnegative integer. -/
def decRepr (n : Nat) : List Char :=
  if _h : n < 10 then [Nat.digitChar n]
  else decRepr (n / 10) ++ [Nat.digitChar (n % 10)]
decreasing_by
  exact Nat.div_lt_self (by omega) (by omega)

/-- The year field of `strftime('%Y', date)`: the year zero-padded on the
left to (at least) four digits. -/
def pad4 (n : Nat) : List Char :=
  List.replicate (4 - (decRepr n).length) '0' ++ decRepr n

/-- `expenses_by_month` (src/SourceCode.py:128-142):
`SELECT strftime('%m', date), SUM(amount) FROM expenses
WHERE strftime('%Y', date) = ? GROUP BY month ORDER BY month`, with
Python passing `str(year)` as the parameter.  The month keys are the
two-digit strings `"01".."12"`, represented here by their numeric value
(zero-padded two-digit string order agrees with numeric order).
The Python `year = year or current_year` wall-clock defaulting for a
falsy `year` argument is outside the model; all theorems below use
explicit years ≥ 1. -/
def expenses_by_month (db : DB) (year : Nat) : List (Nat × ℚ) :=
  let rows := db.expenses.filter (fun e => decide (pad4 e.date.year = decRepr year))
  let months := (rows.map (·.date.month)).dedup
  sortBy (fun p q : Nat × ℚ => decide (q.1 < p.1))
    (months.map (fun m =>
      (m, ((rows.filter (fun e => decide (e.date.month = m))).map (·.amount)).sum)))

/- ### File names and the manager object -/

/-- The character substitution of `re.sub(r'[^a-zA-Z0-9]', '_', email)`:
characters outside `[a-zA-Z0-9]` become `'_'`. -/
def substChar (c : Char) : Char :=
  if ('a' ≤ c ∧ c ≤ 'z') ∨ ('A' ≤ c ∧ c ≤ 'Z') ∨ ('0' ≤ c ∧ c ≤ '9') then c else '_'

/-- `sanitize_email` (src/SourceCode.py:23-26): `""` for a falsy argument
(`None` or the empty string — the guard is absorbed since mapping over the
empty string is the empty string), otherwise the `re.sub` substitution. -/
def sanitize_email (email : Option String) : String :=
  match email with
  | none => ""
  | some e => ⟨e.data.map substChar⟩

/-- The fixed local database file name (src/SourceCode.py:18). -/
def local_db_file : String := "expenses.db"

/-- The email-keyed database file name
`f"expenses_{self.sanitize_email(email)}.db"` (src/SourceCode.py:19,206). -/
def email_db_file (email : Option String) : String :=
  "expenses_" ++ sanitize_email email ++ ".db"

/-- The backing file a `(is_local, email)` selector denotes
(src/SourceCode.py:20,203-207). -/
def fileOfSelector (isLoc : Bool) (email : Option String) : String :=
  if isLoc then local_db_file else email_db_file email

/-- The mutable state of a `DatabaseManager` plus the filesystem of
database files it works against (file name ↦ file contents; a name absent
from the list is a file that does not exist yet). -/
structure Manager where
  files : List (String × DB)
  isLoc : Bool
  email : Option String
  current_db_file : String
deriving DecidableEq

/-- The contents of the currently selected database file.  All reachable
states have the current file present (`create_table` runs at construction
and on every switch); the `DB.empty` default is never hit there. -/
def getFile (m : Manager) : DB :=
  (List.lookup m.current_db_file m.files).getD DB.empty

/-- Write back the contents of the currently selected database file. -/
def setFile (m : Manager) (db : DB) : Manager :=
  { m with files := m.files.map (fun p =>
      if p.1 = m.current_db_file then (p.1, db) else p) }

/-- `create_table` (src/SourceCode.py:28-47): `CREATE TABLE IF NOT EXISTS`
on both tables — creates the (empty) database file if absent, otherwise
leaves everything unchanged. -/
def create_table (m : Manager) : Manager :=
  if (List.lookup m.current_db_file m.files).isSome then m
  else { m with files := m.files ++ [(m.current_db_file, DB.empty)] }

/-- `__init__` (src/SourceCode.py:15-21), given the pre-existing files.
The `is_local=False, email=None` combination (whose `current_db_file`
would be Python `None`) is not modelled; the app only constructs with
`is_local=True`. -/
def initManager (files0 : List (String × DB)) (isLoc : Bool)
    (email : Option String) : Manager :=
  create_table
    { files := files0, isLoc := isLoc, email := email,
      current_db_file := if isLoc then local_db_file else email_db_file email }

/-- `switch_database` (src/SourceCode.py:199-210): repoint
`current_db_file`, run `create_table` on it, return `True`. -/
def switch_database (m : Manager) (isLoc : Bool) (email : Option String) :
    Manager × Bool :=
  (create_table
    { m with isLoc := isLoc, email := email,
             current_db_file := fileOfSelector isLoc email }, true)

/- ### Manager-level mutations, for the cross-dataset claims -/

/-- One user-level mutation issued through the manager. -/
inductive Op where
  | addE (descr : String) (amount : ℚ) (cat : String) (dt : Date)
  | deleteE (eid : Nat)
  | updateE (eid : Nat) (descr : String) (amount : ℚ) (cat : String) (dt : Date)
deriving DecidableEq

/-- Apply one mutation to a single database file. -/
def applyDBOp (db : DB) : Op → DB
  | Op.addE descr amount cat dt => (add_expense db descr amount cat dt).1
  | Op.deleteE eid => (delete_expense db eid).1
  | Op.updateE eid descr amount cat dt => (update_expense db eid descr amount cat dt).1

def applyDBOps (db : DB) : List Op → DB
  | [] => db
  | op :: ops => applyDBOps (applyDBOp db op) ops

/-- Apply one mutation through the manager: it touches only the currently
selected file. -/
def applyOp (m : Manager) (op : Op) : Manager :=
  setFile m (applyDBOp (getFile m) op)

def applyOps (m : Manager) : List Op → Manager
  | [] => m
  | op :: ops => applyOps (applyOp m op) ops

/-- `load_expenses` seen from the manager (the Python method reads the
currently selected file). -/
def mgrLoadExpenses (m : Manager) : List Expense :=
  load_expenses (getFile m)

/- ### The email backup (src/SourceCode.py:165-197)

Modelled over the set of files on disk (as a list of names).  The SMTP
session is an external collaborator: `smtpOk = true` means login and send
succeed, `smtpOk = false` means `login`/`sendmail` raises (authentication
or network failure), jumping to the `except` branch.  The temporary
artifact is `f"expense_backup_{timestamp}.json"`; `os.remove` runs only on
the success path — there is no `finally` block. -/

/-- The temporary artifact name for a given timestamp string. -/
def backupFileName (ts : String) : String :=
  "expense_backup_" ++ ts ++ ".json"

/-- Create a file (Python `open(..., 'w')`): the name is on disk after. -/
def createFile (fs : List String) (f : String) : List String :=
  if f ∈ fs then fs else fs ++ [f]

/-- `os.remove`: the name is gone from disk after. -/
def removeFile (fs : List String) (f : String) : List String :=
  fs.filter (fun g => decide (g ≠ f))

/-- `email_backup`: export the JSON artifact, attach and send it; on
success remove the artifact and return `True`, on an SMTP exception fall
to the `except` branch and return `False` (no cleanup there). Returns the
resulting set of files on disk and the Python return value. -/
def email_backup (fs : List String) (ts : String) (smtpOk : Bool) :
    List String × Bool :=
  let fs1 := createFile fs (backupFileName ts)
  if smtpOk then (removeFile fs1 (backupFileName ts), true) else (fs1, false)

/- ### Facts about the date comparator -/

theorem dateLt_asymm (a b : Date) : dateLt a b = true → dateLt b a = false := by
  simp only [dateLt, decide_eq_true_eq, decide_eq_false_iff_not]
  omega

theorem dateLt_lin (a b c : Date) :
    dateLt a c = true → dateLt a b = true ∨ dateLt b c = true := by
  simp only [dateLt, decide_eq_true_eq]
  omega

theorem dateLt_of_eq (a b : Date) (h : a = b) : dateLt a b = false := by
  subst h
  simp only [dateLt, decide_eq_false_iff_not]
  omega

/- ### Summing group-by fibers -/

theorem sum_map_zero_of_ne {κ : Type} [DecidableEq κ] (b : κ) (v : ℚ)
    (cs : List κ) (h : ∀ c ∈ cs, ¬ b = c) :
    (cs.map (fun c => if b = c then v else 0)).sum = 0 := by
  induction cs with
  | nil => simp
  | cons c cs ih =>
    have hbc : ¬ b = c := h c (List.mem_cons_self c cs)
    simp only [List.map_cons, List.sum_cons, hbc, if_neg]
    rw [ih (fun c' hc' => h c' (List.mem_cons_of_mem c hc'))]
    simp

theorem sum_map_ite_single {κ : Type} [DecidableEq κ] (b : κ) (v : ℚ)
    (cats : List κ) (hmem : b ∈ cats) (hnd : cats.Nodup) :
    (cats.map (fun c => if b = c then v else 0)).sum = v := by
  induction cats with
  | nil => cases hmem
  | cons c cs ih =>
    rcases List.nodup_cons.mp hnd with ⟨hc, hcs⟩
    rcases List.mem_cons.mp hmem with hbc | hbc
    · subst hbc
      simp only [List.map_cons, List.sum_cons, if_pos rfl]
      rw [sum_map_zero_of_ne b v cs (fun c' hc' hb => hc (hb ▸ hc'))]
      simp
    · have hne : ¬ b = c := fun hb => hc (hb ▸ hbc)
      simp only [List.map_cons, List.sum_cons, hne, if_neg]
      rw [ih hbc hcs]
      simp

/-- Summing a quantity fiberwise over a covering duplicate-free list of
group keys gives the total sum: the content of SQL `GROUP BY` plus `SUM`
against a whole-table `SUM`. -/
theorem sum_fiber {α κ : Type} [DecidableEq κ] (key : α → κ) (f : α → ℚ)
    (cats : List κ) (l : List α) (hnd : cats.Nodup)
    (hcov : ∀ e ∈ l, key e ∈ cats) :
    (cats.map (fun c => ((l.filter (fun e => decide (key e = c))).map f).sum)).sum
      = (l.map f).sum := by
  induction l with
  | nil => simp
  | cons a l ih =>
    have hsplit : (fun c => ((List.filter (fun e => decide (key e = c)) (a :: l)).map f).sum)
        = (fun c => (if key a = c then f a else 0)
            + ((List.filter (fun e => decide (key e = c)) l).map f).sum) := by
      funext c
      by_cases h : key a = c <;> simp [List.filter, h]
    rw [hsplit, List.sum_map_add,
      sum_map_ite_single (key a) (f a) cats (hcov a (List.mem_cons_self a l)) hnd,
      ih (fun e he => hcov e (List.mem_cons_of_mem a he))]
    simp

/-- C4: `listAll()` (`load_expenses`) returns all expense rows, ordered by
date descending, and rows of equal date keep their insertion (rowid)
order — formalised by: the result is a permutation of the table, no row is
followed by one with a strictly later date, and filtering the result to
any fixed date gives exactly the table's rows of that date in table
order. -/
theorem C4_load_expenses_sorted (db : DB) :
    List.Perm (load_expenses db) db.expenses
    ∧ (load_expenses db).Pairwise (fun a b => dateLt a.date b.date = false)
    ∧ ∀ d : Date, (load_expenses db).filter (fun e => decide (e.date = d))
        = db.expenses.filter (fun e => decide (e.date = d)) := by
  refine ⟨perm_sortBy _ _, ?_, ?_⟩
  · exact pairwise_sortBy _ (fun a b => dateLt_asymm a.date b.date)
      (fun a b c => dateLt_lin a.date b.date c.date) db.expenses
  · intro d
    refine filter_sortBy _ _ ?_ db.expenses
    intro a b ha hb
    simp only [decide_eq_true_eq] at ha hb
    exact dateLt_of_eq a.date b.date (ha.trans hb.symm)

/-- C6: `total()` (`total_expenses`) equals the sum of the amounts of all
expense rows, and is the number zero — not an error or an absent value —
on an empty table (where SQL `SUM` is `NULL` and the Python code
substitutes `0`). -/
theorem C6_total_expenses (db : DB) :
    total_expenses db = (db.expenses.map (·.amount)).sum
    ∧ (db.expenses = [] → total_expenses db = 0) := by
  constructor
  · by_cases h : db.expenses.isEmpty
    · rw [List.isEmpty_iff] at h
      simp [total_expenses, sqlSumAmount, h]
    · simp [total_expenses, sqlSumAmount, h]
  · intro h
    simp [total_expenses, sqlSumAmount, h]

/- ### Simple consequences of the operation definitions -/

theorem total_expenses_eq_sum (db : DB) :
    total_expenses db = (db.expenses.map (·.amount)).sum := by
  by_cases h : db.expenses.isEmpty
  · rw [List.isEmpty_iff] at h
    simp [total_expenses, sqlSumAmount, h]
  · simp [total_expenses, sqlSumAmount, h]

theorem map_update_of_no_match (l : List Expense) (eid : Nat) (descr : String)
    (amount : ℚ) (cat : String) (dt : Date)
    (hid : ∀ e ∈ l, e.id ≠ eid) :
    l.map (fun e => if e.id = eid then ⟨e.id, descr, amount, cat, dt⟩ else e) = l := by
  induction l with
  | nil => rfl
  | cons x xs ih =>
    have hx : x.id ≠ eid := hid x (List.mem_cons_self x xs)
    simp only [List.map_cons, if_neg hx]
    rw [ih (fun e he => hid e (List.mem_cons_of_mem x he))]

theorem insertCategory_expenses (db : DB) (c : String) :
    (insertCategory db c).expenses = db.expenses := by
  unfold insertCategory
  by_cases h : c ∈ db.categories <;> simp [h]

theorem insertCategory_nextId (db : DB) (c : String) :
    (insertCategory db c).nextId = db.nextId := by
  unfold insertCategory
  by_cases h : c ∈ db.categories <;> simp [h]

theorem mem_insertCategory (db : DB) (c : String) :
    c ∈ (insertCategory db c).categories := by
  unfold insertCategory
  by_cases h : c ∈ db.categories <;> simp [h]

/-- C3: for an `id` not present in the table, `delete_expense` and
`update_expense` return success (`True`, no exception), leave every
existing expense row unchanged, and — for any table at all — listing after
a delete never shows a row with the deleted id. -/
theorem C3_missing_id_noop (db : DB) (eid : Nat) (descr : String)
    (amount : ℚ) (cat : String) (dt : Date)
    (hid : ∀ e ∈ db.expenses, e.id ≠ eid) :
    (delete_expense db eid).2 = true
    ∧ (delete_expense db eid).1.expenses = db.expenses
    ∧ (update_expense db eid descr amount cat dt).2 = true
    ∧ (update_expense db eid descr amount cat dt).1.expenses = db.expenses
    ∧ ∀ (db2 : DB) (e : Expense),
        e ∈ load_expenses (delete_expense db2 eid).1 → e.id ≠ eid := by
  refine ⟨rfl, ?_, rfl, ?_, ?_⟩
  · simp only [delete_expense]
    exact List.filter_eq_self.mpr (fun e he => by simpa using hid e he)
  · simp only [update_expense, insertCategory_expenses]
    exact map_update_of_no_match db.expenses eid descr amount cat dt hid
  · intro db2 e he
    rw [load_expenses, mem_sortBy] at he
    simp only [delete_expense] at he
    exact of_decide_eq_true (List.mem_filter.mp he).2

/-- Closed witness for C3 at a concrete table and a concrete absent id. -/
theorem C3_missing_id_noop_witness :
    (∀ e ∈ (⟨[⟨1, "Coffee", 5, "Food", ⟨2024, 1, 5⟩⟩], ["Food"], 2⟩ : DB).expenses,
        e.id ≠ 7)
    ∧ ((delete_expense ⟨[⟨1, "Coffee", 5, "Food", ⟨2024, 1, 5⟩⟩], ["Food"], 2⟩ 7).2 = true
      ∧ (delete_expense ⟨[⟨1, "Coffee", 5, "Food", ⟨2024, 1, 5⟩⟩], ["Food"], 2⟩ 7).1.expenses
          = (⟨[⟨1, "Coffee", 5, "Food", ⟨2024, 1, 5⟩⟩], ["Food"], 2⟩ : DB).expenses
      ∧ (update_expense ⟨[⟨1, "Coffee", 5, "Food", ⟨2024, 1, 5⟩⟩], ["Food"], 2⟩ 7
          "Tea" 3 "Drinks" ⟨2024, 2, 1⟩).2 = true
      ∧ (update_expense ⟨[⟨1, "Coffee", 5, "Food", ⟨2024, 1, 5⟩⟩], ["Food"], 2⟩ 7
          "Tea" 3 "Drinks" ⟨2024, 2, 1⟩).1.expenses
          = (⟨[⟨1, "Coffee", 5, "Food", ⟨2024, 1, 5⟩⟩], ["Food"], 2⟩ : DB).expenses
      ∧ ∀ (db2 : DB) (e : Expense),
          e ∈ load_expenses (delete_expense db2 7).1 → e.id ≠ 7) :=
  ⟨by decide,
    C3_missing_id_noop ⟨[⟨1, "Coffee", 5, "Food", ⟨2024, 1, 5⟩⟩], ["Food"], 2⟩ 7
      "Tea" 3 "Drinks" ⟨2024, 2, 1⟩ (by decide)⟩

/-- C10: `update_expense` on an absent id with a previously unseen
category name modifies no expense row, yet inserts the name into the
categories table, so `get_categories` afterwards contains it. -/
theorem C10_update_inserts_category (db : DB) (eid : Nat) (descr : String)
    (amount : ℚ) (cat : String) (dt : Date)
    (hid : ∀ e ∈ db.expenses, e.id ≠ eid) (_hnew : cat ∉ db.categories) :
    (update_expense db eid descr amount cat dt).2 = true
    ∧ (update_expense db eid descr amount cat dt).1.expenses = db.expenses
    ∧ cat ∈ get_categories (update_expense db eid descr amount cat dt).1 := by
  refine ⟨rfl, ?_, ?_⟩
  · simp only [update_expense, insertCategory_expenses]
    exact map_update_of_no_match db.expenses eid descr amount cat dt hid
  · rw [get_categories, mem_sortBy]
    simp only [update_expense]
    exact mem_insertCategory db cat

/-- Closed witness for C10: updating absent id 7 with the new name
"Drinks" leaves the single row alone but `get_categories` gains the
name. -/
theorem C10_update_inserts_category_witness :
    ((∀ e ∈ (⟨[⟨1, "Coffee", 5, "Food", ⟨2024, 1, 5⟩⟩], ["Food"], 2⟩ : DB).expenses,
        e.id ≠ 7) ∧ "Drinks" ∉ (⟨[⟨1, "Coffee", 5, "Food", ⟨2024, 1, 5⟩⟩], ["Food"], 2⟩ : DB).categories)
    ∧ ((update_expense ⟨[⟨1, "Coffee", 5, "Food", ⟨2024, 1, 5⟩⟩], ["Food"], 2⟩ 7
          "Tea" 3 "Drinks" ⟨2024, 2, 1⟩).2 = true
      ∧ (update_expense ⟨[⟨1, "Coffee", 5, "Food", ⟨2024, 1, 5⟩⟩], ["Food"], 2⟩ 7
          "Tea" 3 "Drinks" ⟨2024, 2, 1⟩).1.expenses
          = (⟨[⟨1, "Coffee", 5, "Food", ⟨2024, 1, 5⟩⟩], ["Food"], 2⟩ : DB).expenses
      ∧ "Drinks" ∈ get_categories (update_expense
          ⟨[⟨1, "Coffee", 5, "Food", ⟨2024, 1, 5⟩⟩], ["Food"], 2⟩ 7
          "Tea" 3 "Drinks" ⟨2024, 2, 1⟩).1) :=
  ⟨⟨by decide, by decide⟩,
    C10_update_inserts_category ⟨[⟨1, "Coffee", 5, "Food", ⟨2024, 1, 5⟩⟩], ["Food"], 2⟩ 7
      "Tea" 3 "Drinks" ⟨2024, 2, 1⟩ (by decide) (by decide)⟩

/-- C5 counterexample: `add_expense` does not return the newly created
row's id.  Two starting tables whose freshly created rows receive the
different ids 1 and 2 get the identical return value `True` — the return
value is a constant success flag and carries no row identity. -/
theorem C5_counterexample :
    (add_expense DB.empty "Bus" 2 "Transport" ⟨2024, 1, 6⟩).2
      = (add_expense ⟨[⟨1, "Coffee", 5, "Food", ⟨2024, 1, 5⟩⟩], ["Food"], 2⟩
          "Bus" 2 "Transport" ⟨2024, 1, 6⟩).2
    ∧ (add_expense DB.empty "Bus" 2 "Transport" ⟨2024, 1, 6⟩).1.expenses.map (·.id)
        = [1]
    ∧ (add_expense ⟨[⟨1, "Coffee", 5, "Food", ⟨2024, 1, 5⟩⟩], ["Food"], 2⟩
        "Bus" 2 "Transport" ⟨2024, 1, 6⟩).1.expenses.map (·.id) = [1, 2] := by
  decide

/-- C5 (amended): `add_expense` inserts the category if it is new, appends
the expense row under the next AUTOINCREMENT id, and returns the success
flag `True` (not the new row's id). -/
theorem C5_add_expense_amended (db : DB) (descr : String) (amount : ℚ)
    (cat : String) (dt : Date) :
    (add_expense db descr amount cat dt).1.categories
      = (if cat ∈ db.categories then db.categories else db.categories ++ [cat])
    ∧ (add_expense db descr amount cat dt).1.expenses
        = db.expenses ++ [⟨db.nextId, descr, amount, cat, dt⟩]
    ∧ (add_expense db descr amount cat dt).1.nextId = db.nextId + 1
    ∧ (add_expense db descr amount cat dt).2 = true := by
  refine ⟨?_, ?_, ?_, rfl⟩
  · simp only [add_expense, insertCategory]
    by_cases h : cat ∈ db.categories <;> simp [h]
  · simp only [add_expense, insertCategory_expenses, insertCategory_nextId]
  · simp only [add_expense, insertCategory_nextId]

/- ### C2: the category breakdown -/

theorem rat_snd_asymm (a b : String × ℚ) :
    decide (a.2 < b.2) = true → decide (b.2 < a.2) = false := by
  simp only [decide_eq_true_eq, decide_eq_false_iff_not]
  exact fun h => not_lt_of_gt h

theorem rat_snd_lin (a b c : String × ℚ) :
    decide (a.2 < c.2) = true → decide (a.2 < b.2) = true ∨ decide (b.2 < c.2) = true := by
  simp only [decide_eq_true_eq]
  intro h
  rcases lt_or_le a.2 b.2 with h1 | h1
  · exact Or.inl h1
  · exact Or.inr (lt_of_le_of_lt h1 h)

/-- C2: `totalsByCategory()` (`expenses_by_category`) has exactly one
entry per category with at least one expense (no duplicates, and a
category appears iff some expense carries it), its sums are in descending
order, and the sums of all entries add up exactly to `total()`. -/
theorem C2_totals_by_category (db : DB) :
    ((expenses_by_category db).map Prod.fst).Nodup
    ∧ (∀ c : String,
        c ∈ (expenses_by_category db).map Prod.fst ↔ ∃ e ∈ db.expenses, e.category = c)
    ∧ (expenses_by_category db).Pairwise (fun p q => q.2 ≤ p.2)
    ∧ ((expenses_by_category db).map Prod.snd).sum = total_expenses db := by
  have hperm : List.Perm (expenses_by_category db)
      (((db.expenses.map (·.category)).dedup).map (fun c =>
        (c, ((db.expenses.filter (fun e => decide (e.category = c))).map (·.amount)).sum))) :=
    perm_sortBy _ _
  have hfst : (((db.expenses.map (·.category)).dedup).map (fun c =>
        (c, ((db.expenses.filter (fun e => decide (e.category = c))).map (·.amount)).sum))).map Prod.fst
      = (db.expenses.map (·.category)).dedup := by
    rw [List.map_map]; exact List.map_id' _
  refine ⟨?_, ?_, ?_, ?_⟩
  · exact ((hperm.map Prod.fst).nodup_iff).mpr
      (by rw [hfst]; exact List.nodup_dedup (db.expenses.map (·.category)))
  · intro c
    rw [(hperm.map Prod.fst).mem_iff, hfst, List.mem_dedup, List.mem_map]
  · have := pairwise_sortBy (fun p q : String × ℚ => decide (p.2 < q.2))
      rat_snd_asymm rat_snd_lin
      (((db.expenses.map (·.category)).dedup).map (fun c =>
        (c, ((db.expenses.filter (fun e => decide (e.category = c))).map (·.amount)).sum)))
    refine this.imp ?_
    intro p q h
    simpa using h
  · rw [(hperm.map Prod.snd).sum_eq, List.map_map]
    have : (Prod.snd ∘ fun c =>
        (c, ((db.expenses.filter (fun e => decide (e.category = c))).map (·.amount)).sum))
      = fun c => ((db.expenses.filter (fun e => decide (e.category = c))).map (·.amount)).sum := rfl
    rw [this, total_expenses_eq_sum]
    exact sum_fiber (·.category) (·.amount) ((db.expenses.map (·.category)).dedup)
      db.expenses (List.nodup_dedup _)
      (fun e he => List.mem_dedup.mpr (List.mem_map_of_mem (·.category) he))

/- ### Properties of the decimal numerals -/

theorem decRepr_of_lt (n : Nat) (h : n < 10) : decRepr n = [Nat.digitChar n] := by
  rw [decRepr, dif_pos h]

theorem decRepr_of_ge (n : Nat) (h : 10 ≤ n) :
    decRepr n = decRepr (n / 10) ++ [Nat.digitChar (n % 10)] := by
  rw [decRepr, dif_neg (by omega)]

theorem decRepr_ne_nil (n : Nat) : decRepr n ≠ [] := by
  by_cases h : n < 10
  · rw [decRepr_of_lt n h]; simp
  · rw [decRepr_of_ge n (by omega)]; simp

theorem le_length_decRepr : ∀ (k n : Nat), 10 ^ k ≤ n → k + 1 ≤ (decRepr n).length := by
  intro k
  induction k with
  | zero =>
    intro n _
    have := decRepr_ne_nil n
    cases hd : decRepr n with
    | nil => exact absurd hd this
    | cons c l => simp
  | succ k ih =>
    intro n h
    have h10 : 10 ≤ n := le_trans (by calc
      (10 : Nat) = 10 ^ 1 := (pow_one 10).symm
      _ ≤ 10 ^ (k + 1) := Nat.pow_le_pow_right (by omega) (by omega)) h
    rw [decRepr_of_ge n h10, List.length_append]
    have hdiv : 10 ^ k ≤ n / 10 := by
      rw [Nat.le_div_iff_mul_le (by omega)]
      calc 10 ^ k * 10 = 10 ^ (k + 1) := (pow_succ 10 k).symm
        _ ≤ n := h
    have := ih (n / 10) hdiv
    simp only [List.length_cons, List.length_nil]
    omega

theorem length_decRepr_le : ∀ (k n : Nat), n < 10 ^ (k + 1) → (decRepr n).length ≤ k + 1 := by
  intro k
  induction k with
  | zero =>
    intro n h
    rw [decRepr_of_lt n (by simpa using h)]
    simp
  | succ k ih =>
    intro n h
    by_cases h10 : n < 10
    · rw [decRepr_of_lt n h10]; simp
    · rw [decRepr_of_ge n (by omega), List.length_append]
      have hdiv : n / 10 < 10 ^ (k + 1) := by
        rw [Nat.div_lt_iff_lt_mul (by omega)]
        calc n < 10 ^ (k + 2) := h
          _ = 10 ^ (k + 1) * 10 := pow_succ 10 (k + 1)
      have := ih (n / 10) hdiv
      simp only [List.length_cons, List.length_nil]
      omega

theorem decRepr_head_ne_zero : ∀ (n : Nat), 1 ≤ n →
    ∀ c, (decRepr n).head? = some c → c ≠ '0' := by
  intro n
  induction n using Nat.strong_induction_on with
  | _ n ih =>
    intro h1 c hc
    by_cases h10 : n < 10
    · rw [decRepr_of_lt n h10] at hc
      simp only [List.head?_cons, Option.some.injEq] at hc
      subst hc
      interval_cases n <;> decide
    · rw [decRepr_of_ge n (by omega)] at hc
      cases hd : decRepr (n / 10) with
      | nil => exact absurd hd (decRepr_ne_nil (n / 10))
      | cons x l =>
        rw [hd] at hc
        simp only [List.cons_append, List.head?_cons, Option.some.injEq] at hc
        subst hc
        refine ih (n / 10) (Nat.div_lt_self (by omega) (by omega))
          (by omega : 1 ≤ n / 10) x ?_
        rw [hd]; rfl

/-- The numeric value of a digit string (evaluation map used to prove that
`decRepr` is injective). -/
def digitsVal (l : List Char) : Nat :=
  l.foldl (fun acc c => 10 * acc + (c.toNat - 48)) 0

theorem digitChar_toNat (d : Nat) (h : d < 10) : (Nat.digitChar d).toNat - 48 = d := by
  interval_cases d <;> decide

theorem digitsVal_decRepr : ∀ n : Nat, digitsVal (decRepr n) = n := by
  intro n
  induction n using Nat.strong_induction_on with
  | _ n ih =>
    by_cases h10 : n < 10
    · rw [decRepr_of_lt n h10]
      simp only [digitsVal, List.foldl_cons, List.foldl_nil]
      rw [digitChar_toNat n h10]
      omega
    · rw [decRepr_of_ge n (by omega)]
      unfold digitsVal
      rw [List.foldl_append]
      have hrec := ih (n / 10) (Nat.div_lt_self (by omega) (by omega))
      unfold digitsVal at hrec
      rw [hrec]
      simp only [List.foldl_cons, List.foldl_nil]
      rw [digitChar_toNat (n % 10) (Nat.mod_lt n (by omega))]
      omega

theorem decRepr_injective (a b : Nat) (h : decRepr a = decRepr b) : a = b := by
  have := congrArg digitsVal h
  rwa [digitsVal_decRepr, digitsVal_decRepr] at this

theorem length_pad4 (n : Nat) (h : n ≤ 9999) : (pad4 n).length = 4 := by
  have hle : (decRepr n).length ≤ 4 := length_decRepr_le 3 n (by omega)
  rw [pad4, List.length_append, List.length_replicate]
  omega

theorem pad4_eq_decRepr (n : Nat) (h1 : 1000 ≤ n) (h2 : n ≤ 9999) :
    pad4 n = decRepr n := by
  have hge : 4 ≤ (decRepr n).length := le_length_decRepr 3 n (by omega)
  rw [pad4]
  have : 4 - (decRepr n).length = 0 := by omega
  rw [this, List.replicate_zero, List.nil_append]

theorem pad4_head_zero (n : Nat) (h : n < 1000) : (pad4 n).head? = some '0' := by
  have hle : (decRepr n).length ≤ 3 := by
    rcases Nat.eq_zero_or_pos n with h0 | h0
    · subst h0
      rw [decRepr_of_lt 0 (by omega)]
      simp
    · exact length_decRepr_le 2 n (by omega)
  obtain ⟨m, hm⟩ : ∃ m, 4 - (decRepr n).length = m + 1 := ⟨3 - (decRepr n).length, by omega⟩
  rw [pad4, hm, List.replicate_succ]
  rfl

/-- The central C1 fact: for a year field within the representable date
range, the SQL comparison `strftime('%Y', date) = str(year)` agrees with
the arithmetic comparison `date.year = year` exactly when the queried
`year` has at least four digits. -/
theorem pad4_eq_decRepr_iff (y year : Nat) (hy1 : 1 ≤ y) (hy2 : y ≤ 9999)
    (hyr : 1000 ≤ year) : pad4 y = decRepr year ↔ y = year := by
  by_cases hyr2 : year ≤ 9999
  · by_cases hy3 : 1000 ≤ y
    · rw [pad4_eq_decRepr y hy3 hy2]
      exact ⟨decRepr_injective y year, fun h => h ▸ rfl⟩
    · constructor
      · intro h
        exfalso
        have hz := pad4_head_zero y (by omega)
        rw [h] at hz
        exact decRepr_head_ne_zero year (by omega) '0' hz rfl
      · intro h
        omega
  · constructor
    · intro h
      exfalso
      have h4 : (pad4 y).length = 4 := length_pad4 y hy2
      have h5 : 5 ≤ (decRepr year).length := le_length_decRepr 4 year (by omega)
      rw [h] at h4
      omega
    · intro h
      omega

/- ### C1: the month breakdown -/

theorem monthCmp_asymm (a b : Nat × ℚ) :
    decide (b.1 < a.1) = true → decide (a.1 < b.1) = false := by
  simp only [decide_eq_true_eq, decide_eq_false_iff_not]
  omega

theorem monthCmp_lin (a b c : Nat × ℚ) :
    decide (c.1 < a.1) = true → decide (b.1 < a.1) = true ∨ decide (c.1 < b.1) = true := by
  simp only [decide_eq_true_eq]
  omega

/-- For a table of valid dates and a queried year of at least four digits,
the string filter of `expenses_by_month` coincides with filtering on the
numeric year. -/
theorem month_filter_eq (db : DB) (year : Nat)
    (hok : ∀ e ∈ db.expenses, e.date.okay) (hyear : 1000 ≤ year) :
    db.expenses.filter (fun e => decide (pad4 e.date.year = decRepr year))
      = db.expenses.filter (fun e => decide (e.date.year = year)) := by
  refine List.filter_congr ?_
  intro e he
  rcases hok e he with ⟨h1, h2, _⟩
  exact decide_eq_decide.mpr (pad4_eq_decRepr_iff e.date.year year h1 h2 hyear)

/-- C1 (amended to queried years ≥ 1000; see the counterexample for the
years below 1000): `totalsByMonth(year)` has one entry per month (in
1..12) that has at least one expense dated in that calendar year, in
strictly ascending month order, never lists a month with a zero sum (all
amounts being positive per the data model), and its sums add up to the sum
of all amounts of expenses dated in that year. -/
theorem C1_totals_by_month_amended (db : DB) (year : Nat)
    (hok : ∀ e ∈ db.expenses, e.date.okay)
    (hpos : ∀ e ∈ db.expenses, 0 < e.amount)
    (hyear : 1000 ≤ year) :
    ((expenses_by_month db year).map Prod.fst).Nodup
    ∧ (expenses_by_month db year).Pairwise (fun p q => p.1 < q.1)
    ∧ (∀ p ∈ expenses_by_month db year, 1 ≤ p.1 ∧ p.1 ≤ 12)
    ∧ (∀ m : Nat, m ∈ (expenses_by_month db year).map Prod.fst
        ↔ ∃ e ∈ db.expenses, e.date.year = year ∧ e.date.month = m)
    ∧ (∀ p ∈ expenses_by_month db year, 0 < p.2)
    ∧ ((expenses_by_month db year).map Prod.snd).sum
        = ((db.expenses.filter (fun e => decide (e.date.year = year))).map (·.amount)).sum := by
  have hkey : expenses_by_month db year =
      sortBy (fun p q : Nat × ℚ => decide (q.1 < p.1))
        ((((db.expenses.filter (fun e => decide (e.date.year = year))).map
            (·.date.month)).dedup).map (fun m =>
          (m, (((db.expenses.filter (fun e => decide (e.date.year = year))).filter
              (fun e => decide (e.date.month = m))).map (·.amount)).sum))) := by
    unfold expenses_by_month
    rw [month_filter_eq db year hok hyear]
  have hrowmem : ∀ e : Expense,
      e ∈ db.expenses.filter (fun e => decide (e.date.year = year))
        ↔ e ∈ db.expenses ∧ e.date.year = year := by
    intro e
    rw [List.mem_filter]
    simp
  have hperm : List.Perm (expenses_by_month db year)
      ((((db.expenses.filter (fun e => decide (e.date.year = year))).map
          (·.date.month)).dedup).map (fun m =>
        (m, (((db.expenses.filter (fun e => decide (e.date.year = year))).filter
            (fun e => decide (e.date.month = m))).map (·.amount)).sum))) := by
    rw [hkey]; exact perm_sortBy _ _
  have hfst : ((((db.expenses.filter (fun e => decide (e.date.year = year))).map
          (·.date.month)).dedup).map (fun m =>
        (m, (((db.expenses.filter (fun e => decide (e.date.year = year))).filter
            (fun e => decide (e.date.month = m))).map (·.amount)).sum))).map Prod.fst
      = ((db.expenses.filter (fun e => decide (e.date.year = year))).map
          (·.date.month)).dedup := by
    rw [List.map_map]; exact List.map_id' _
  have hnodup : ((expenses_by_month db year).map Prod.fst).Nodup :=
    ((hperm.map Prod.fst).nodup_iff).mpr (by rw [hfst]; exact List.nodup_dedup _)
  have hmemitem : ∀ p : Nat × ℚ, p ∈ expenses_by_month db year →
      ∃ e ∈ db.expenses, e.date.year = year ∧ e.date.month = p.1 := by
    intro p hp
    rcases List.mem_map.mp (hperm.mem_iff.mp hp) with ⟨m, hm, hpm⟩
    rcases List.mem_map.mp (List.mem_dedup.mp hm) with ⟨e, he, hem⟩
    rcases (hrowmem e).mp he with ⟨he1, he2⟩
    exact ⟨e, he1, he2, by rw [← hpm]; exact hem⟩
  refine ⟨hnodup, ?_, ?_, ?_, ?_, ?_⟩
  · have hpw : (expenses_by_month db year).Pairwise
        (fun p q : Nat × ℚ => decide (q.1 < p.1) = false) := by
      rw [hkey]
      exact pairwise_sortBy _ monthCmp_asymm monthCmp_lin _
    have hne : (expenses_by_month db year).Pairwise (fun p q => p.1 ≠ q.1) :=
      (List.pairwise_map).mp (List.Pairwise.imp (by intro a b h; exact h) hnodup)
    refine (hpw.and hne).imp ?_
    intro p q h
    rcases h with ⟨h1, h2⟩
    simp only [decide_eq_false_iff_not, not_lt] at h1
    omega
  · intro p hp
    rcases hmemitem p hp with ⟨e, he, _, hmo⟩
    rcases hok e he with ⟨_, _, hm1, hm2, _⟩
    omega
  · intro m
    rw [(hperm.map Prod.fst).mem_iff, hfst, List.mem_dedup, List.mem_map]
    constructor
    · rintro ⟨e, he, hem⟩
      rcases (hrowmem e).mp he with ⟨he1, he2⟩
      exact ⟨e, he1, he2, hem⟩
    · rintro ⟨e, he, hy, hm⟩
      exact ⟨e, (hrowmem e).mpr ⟨he, hy⟩, hm⟩
  · intro p hp
    rcases List.mem_map.mp (hperm.mem_iff.mp hp) with ⟨m, hm, hpm⟩
    rcases List.mem_map.mp (List.mem_dedup.mp hm) with ⟨e0, he0, he0m⟩
    have he0f : e0 ∈ (db.expenses.filter (fun e => decide (e.date.year = year))).filter
        (fun e => decide (e.date.month = m)) :=
      List.mem_filter.mpr ⟨he0, by simpa using he0m⟩
    have hsum : 0 < (((db.expenses.filter (fun e => decide (e.date.year = year))).filter
        (fun e => decide (e.date.month = m))).map (·.amount)).sum := by
      refine List.sum_pos _ ?_ ?_
      · intro x hx
        rcases List.mem_map.mp hx with ⟨e, he, hex⟩
        have : e ∈ db.expenses :=
          ((hrowmem e).mp (List.mem_filter.mp he).1).1
        rw [← hex]
        exact hpos e this
      · exact List.ne_nil_of_mem (List.mem_map_of_mem (·.amount) he0f)
    rw [← hpm]
    exact hsum
  · rw [(hperm.map Prod.snd).sum_eq, List.map_map]
    have hcomp : (Prod.snd ∘ fun m =>
        (m, (((db.expenses.filter (fun e => decide (e.date.year = year))).filter
            (fun e => decide (e.date.month = m))).map (·.amount)).sum))
      = fun m => (((db.expenses.filter (fun e => decide (e.date.year = year))).filter
            (fun e => decide (e.date.month = m))).map (·.amount)).sum := rfl
    rw [hcomp]
    exact sum_fiber (fun e : Expense => e.date.month) (fun e : Expense => e.amount)
      (((db.expenses.filter (fun e => decide (e.date.year = year))).map
        (·.date.month)).dedup)
      (db.expenses.filter (fun e => decide (e.date.year = year)))
      (List.nodup_dedup _)
      (fun e he => List.mem_dedup.mpr (List.mem_map_of_mem (·.date.month) he))

/-- Closed witness for C1 (amended): a one-row table dated 2024-01-05 with
amount 5 queried for year 2024. -/
theorem C1_totals_by_month_amended_witness :
    ((∀ e ∈ (⟨[⟨1, "Coffee", 5, "Food", ⟨2024, 1, 5⟩⟩], ["Food"], 2⟩ : DB).expenses,
        e.date.okay)
      ∧ (∀ e ∈ (⟨[⟨1, "Coffee", 5, "Food", ⟨2024, 1, 5⟩⟩], ["Food"], 2⟩ : DB).expenses,
        0 < e.amount)
      ∧ 1000 ≤ 2024)
    ∧ (((expenses_by_month ⟨[⟨1, "Coffee", 5, "Food", ⟨2024, 1, 5⟩⟩], ["Food"], 2⟩ 2024).map
          Prod.fst).Nodup
      ∧ (expenses_by_month ⟨[⟨1, "Coffee", 5, "Food", ⟨2024, 1, 5⟩⟩], ["Food"], 2⟩
          2024).Pairwise (fun p q => p.1 < q.1)
      ∧ (∀ p ∈ expenses_by_month ⟨[⟨1, "Coffee", 5, "Food", ⟨2024, 1, 5⟩⟩], ["Food"], 2⟩ 2024,
          1 ≤ p.1 ∧ p.1 ≤ 12)
      ∧ (∀ m : Nat, m ∈ (expenses_by_month
            ⟨[⟨1, "Coffee", 5, "Food", ⟨2024, 1, 5⟩⟩], ["Food"], 2⟩ 2024).map Prod.fst
          ↔ ∃ e ∈ (⟨[⟨1, "Coffee", 5, "Food", ⟨2024, 1, 5⟩⟩], ["Food"], 2⟩ : DB).expenses,
            e.date.year = 2024 ∧ e.date.month = m)
      ∧ (∀ p ∈ expenses_by_month ⟨[⟨1, "Coffee", 5, "Food", ⟨2024, 1, 5⟩⟩], ["Food"], 2⟩ 2024,
          0 < p.2)
      ∧ ((expenses_by_month ⟨[⟨1, "Coffee", 5, "Food", ⟨2024, 1, 5⟩⟩], ["Food"], 2⟩ 2024).map
          Prod.snd).sum
        = (((⟨[⟨1, "Coffee", 5, "Food", ⟨2024, 1, 5⟩⟩], ["Food"], 2⟩ : DB).expenses.filter
            (fun e => decide (e.date.year = 2024))).map (·.amount)).sum) :=
  ⟨⟨by decide, by decide, by decide⟩,
    C1_totals_by_month_amended ⟨[⟨1, "Coffee", 5, "Food", ⟨2024, 1, 5⟩⟩], ["Food"], 2⟩ 2024
      (by decide) (by decide) (by decide)⟩

/-- C1 counterexample: for the queried year 999 — truthy in Python, and a
legal year of the `YYYY-MM-DD` date format — a table holding an expense
dated 0999-05-01 yields an EMPTY `totalsByMonth(999)`, although the claim
demands an entry for month 5 with sum 5: SQLite's `strftime('%Y', date)`
is the zero-padded `"0999"` while Python's `str(999)` is `"999"`, so the
`WHERE` clause matches nothing for any queried year below 1000. -/
theorem C1_counterexample :
    (⟨999, 5, 1⟩ : Date).okay
    ∧ (⟨1, "Lunch", 5, "Food", ⟨999, 5, 1⟩⟩ : Expense)
        ∈ (⟨[⟨1, "Lunch", 5, "Food", ⟨999, 5, 1⟩⟩], ["Food"], 2⟩ : DB).expenses
    ∧ (⟨1, "Lunch", 5, "Food", ⟨999, 5, 1⟩⟩ : Expense).date.year = 999
    ∧ expenses_by_month ⟨[⟨1, "Lunch", 5, "Food", ⟨999, 5, 1⟩⟩], ["Food"], 2⟩ 999 = [] := by
  have h9 : decRepr 9 = ['9'] := by
    rw [decRepr_of_lt 9 (by norm_num)]
    decide
  have h99 : decRepr 99 = ['9', '9'] := by
    rw [decRepr_of_ge 99 (by norm_num), show (99 : Nat) / 10 = 9 by norm_num, h9]
    decide
  have h999 : decRepr 999 = ['9', '9', '9'] := by
    rw [decRepr_of_ge 999 (by norm_num), show (999 : Nat) / 10 = 99 by norm_num, h99]
    decide
  have hne : ¬ (pad4 999 = decRepr 999) := by
    rw [pad4, h999]
    decide
  have hd : (decide (pad4 (999 : Nat) = decRepr 999)) = false := decide_eq_false hne
  refine ⟨by decide, by decide, by decide, ?_⟩
  unfold expenses_by_month
  simp only [List.filter, hd, List.map_nil, List.dedup_nil, sortBy]

/- ### C7: backing file names -/

/-- C7: the local backing file has the fixed name `expenses.db`; the
email-keyed backing file name is `expenses_` + sanitized email + `.db`,
where sanitization is a character-by-character map that keeps the length,
leaves `[A-Za-z0-9]` unchanged and sends every other character to `'_'`. -/
theorem C7_file_names (email : String) (c : Char) :
    local_db_file = "expenses.db"
    ∧ email_db_file (some email) = "expenses_" ++ sanitize_email (some email) ++ ".db"
    ∧ (sanitize_email (some email)).length = email.length
    ∧ (∀ i : Nat, ((sanitize_email (some email)).data)[i]?
        = ((email.data)[i]?).map substChar)
    ∧ ((('a' ≤ c ∧ c ≤ 'z') ∨ ('A' ≤ c ∧ c ≤ 'Z') ∨ ('0' ≤ c ∧ c ≤ '9'))
        → substChar c = c)
    ∧ (¬ (('a' ≤ c ∧ c ≤ 'z') ∨ ('A' ≤ c ∧ c ≤ 'Z') ∨ ('0' ≤ c ∧ c ≤ '9'))
        → substChar c = '_') := by
  refine ⟨rfl, rfl, ?_, ?_, ?_, ?_⟩
  · show (email.data.map substChar).length = email.data.length
    exact List.length_map _ _
  · intro i
    simp [sanitize_email, List.getElem?_map]
  · intro h
    simp [substChar, h]
  · intro h
    simp [substChar, h]

/-- Closed witness for C7 on the address `a@b.c` and the character `'@'`
(not alphanumeric, so it is replaced by `'_'`). -/
theorem C7_file_names_witness :
    (¬ (('a' ≤ '@' ∧ '@' ≤ 'z') ∨ ('A' ≤ '@' ∧ '@' ≤ 'Z') ∨ ('0' ≤ '@' ∧ '@' ≤ '9')))
    ∧ substChar '@' = '_'
    ∧ email_db_file (some "a@b.c")
        = "expenses_" ++ sanitize_email (some "a@b.c") ++ ".db" :=
  ⟨by decide, (C7_file_names "a@b.c" '@').2.2.2.2.2 (by decide),
    (C7_file_names "a@b.c" '@').2.1⟩

/- ### Association-list facts for the filesystem of database files -/

theorem lookup_map_update (fs : List (String × DB)) (cur f : String) (db : DB)
    (h : f ≠ cur) :
    List.lookup f (fs.map (fun p => if p.1 = cur then (p.1, db) else p))
      = List.lookup f fs := by
  induction fs with
  | nil => rfl
  | cons p ps ih =>
    rw [List.map_cons]
    by_cases hk : p.1 = cur
    · rw [if_pos hk]
      have hfk : (f == p.1) = false := beq_eq_false_iff_ne.mpr (by rw [hk]; exact h)
      rw [List.lookup_cons, List.lookup_cons]
      simp only [hfk]
      exact ih
    · rw [if_neg hk, List.lookup_cons, List.lookup_cons]
      cases hbeq : (f == p.1) with
      | true => simp
      | false => simpa using ih

theorem lookup_map_update_self (fs : List (String × DB)) (cur : String) (db : DB) :
    List.lookup cur (fs.map (fun p => if p.1 = cur then (p.1, db) else p))
      = (List.lookup cur fs).map (fun _ => db) := by
  induction fs with
  | nil => rfl
  | cons p ps ih =>
    rw [List.map_cons]
    by_cases hk : p.1 = cur
    · rw [if_pos hk]
      have hck : (cur == p.1) = true := beq_iff_eq.mpr hk.symm
      rw [List.lookup_cons, List.lookup_cons]
      simp [hck]
    · rw [if_neg hk, List.lookup_cons, List.lookup_cons]
      have hck : (cur == p.1) = false :=
        beq_eq_false_iff_ne.mpr (fun hc => hk hc.symm)
      simp only [hck]
      exact ih

theorem lookup_append_assoc (f : String) (l1 l2 : List (String × DB)) :
    List.lookup f (l1 ++ l2)
      = match List.lookup f l1 with
        | some v => some v
        | none => List.lookup f l2 := by
  induction l1 with
  | nil => rfl
  | cons p ps ih =>
    rw [List.cons_append, List.lookup_cons, List.lookup_cons]
    cases hbeq : (f == p.1) with
    | true => rfl
    | false => simpa using ih

/- ### Frame lemmas: each operation touches only the current file -/

theorem applyOp_current (m : Manager) (op : Op) :
    (applyOp m op).current_db_file = m.current_db_file := rfl

theorem applyOps_current (m : Manager) (ops : List Op) :
    (applyOps m ops).current_db_file = m.current_db_file := by
  induction ops generalizing m with
  | nil => rfl
  | cons op ops ih => rw [applyOps, ih, applyOp_current]

theorem applyOp_lookup_ne (m : Manager) (op : Op) (f : String)
    (h : f ≠ m.current_db_file) :
    List.lookup f (applyOp m op).files = List.lookup f m.files :=
  lookup_map_update m.files m.current_db_file f _ h

theorem applyOps_lookup_ne (m : Manager) (ops : List Op) (f : String)
    (h : f ≠ m.current_db_file) :
    List.lookup f (applyOps m ops).files = List.lookup f m.files := by
  induction ops generalizing m with
  | nil => rfl
  | cons op ops ih =>
    rw [applyOps, ih (applyOp m op) (by rw [applyOp_current]; exact h)]
    exact applyOp_lookup_ne m op f h

theorem applyOp_lookup_self (m : Manager) (op : Op) :
    List.lookup m.current_db_file (applyOp m op).files
      = (List.lookup m.current_db_file m.files).map (fun db => applyDBOp db op) := by
  have h := lookup_map_update_self m.files m.current_db_file
    (applyDBOp (getFile m) op)
  rw [applyOp, setFile]
  cases hl : List.lookup m.current_db_file m.files with
  | none => rw [h] at *; rw [hl]; rfl
  | some db =>
    rw [h] at *
    rw [hl]
    simp [getFile, hl]

theorem applyOps_lookup_self (m : Manager) (ops : List Op) :
    List.lookup m.current_db_file (applyOps m ops).files
      = (List.lookup m.current_db_file m.files).map (fun db => applyDBOps db ops) := by
  induction ops generalizing m with
  | nil =>
    cases hl : List.lookup m.current_db_file m.files <;> simp [applyOps, hl, applyDBOps]
  | cons op ops ih =>
    rw [applyOps]
    have hcur : (applyOp m op).current_db_file = m.current_db_file := applyOp_current m op
    rw [← hcur, ih (applyOp m op), hcur, applyOp_lookup_self]
    cases hl : List.lookup m.current_db_file m.files <;> simp [applyDBOps]

theorem create_table_current (m : Manager) :
    (create_table m).current_db_file = m.current_db_file := by
  unfold create_table
  by_cases h : (List.lookup m.current_db_file m.files).isSome <;> simp [h]

theorem create_table_lookup_ne (m : Manager) (f : String)
    (h : f ≠ m.current_db_file) :
    List.lookup f (create_table m).files = List.lookup f m.files := by
  unfold create_table
  by_cases hs : (List.lookup m.current_db_file m.files).isSome
  · simp [hs]
  · simp only [hs, if_neg, Bool.false_eq_true, not_false_iff]
    rw [lookup_append_assoc]
    cases hl : List.lookup f m.files with
    | some v => rfl
    | none =>
      have : (f == m.current_db_file) = false := beq_eq_false_iff_ne.mpr h
      simp [List.lookup_cons, this, List.lookup]

theorem create_table_lookup_self (m : Manager) :
    List.lookup m.current_db_file (create_table m).files
      = some ((List.lookup m.current_db_file m.files).getD DB.empty) := by
  unfold create_table
  cases hl : List.lookup m.current_db_file m.files with
  | some v => simp [hl]
  | none =>
    simp only [hl, Option.isSome_none, Bool.false_eq_true, if_neg, not_false_iff,
      Option.getD_none]
    rw [lookup_append_assoc, hl]
    simp [List.lookup_cons]

/- ### C8: dataset isolation across switches -/

theorem switch_current (m : Manager) (loc2 : Bool) (em2 : Option String) :
    (switch_database m loc2 em2).1.current_db_file = fileOfSelector loc2 em2 := by
  unfold switch_database
  rw [create_table_current]

theorem switch_lookup_ne (m : Manager) (loc2 : Bool) (em2 : Option String)
    (f : String) (h : f ≠ fileOfSelector loc2 em2) :
    List.lookup f (switch_database m loc2 em2).1.files = List.lookup f m.files := by
  unfold switch_database
  exact create_table_lookup_ne _ f h

theorem switch_lookup_self (m : Manager) (loc2 : Bool) (em2 : Option String) :
    List.lookup (fileOfSelector loc2 em2) (switch_database m loc2 em2).1.files
      = some ((List.lookup (fileOfSelector loc2 em2) m.files).getD DB.empty) := by
  unfold switch_database
  dsimp only
  exact create_table_lookup_self ⟨m.files, loc2, em2, fileOfSelector loc2 em2⟩

/-- C8 (amended to selectors whose backing files differ; see the
counterexample for the sanitization collision): after switching from the
current dataset A to a different backing file B (created fresh) and
running any sequence of mutations there, (i) A's file still holds exactly
its old contents, (ii) B's file holds exactly those mutations replayed
from an empty dataset — independent of A's data, which is therefore
invisible to queries under B, (iii) listing under B reads exactly that
B-only dataset, (iv) switching back to A lists exactly A's original rows,
and (v) the switch reports success. -/
theorem C8_switch_isolates_amended (m : Manager) (ops : List Op) (loc2 : Bool)
    (em2 : Option String) (dbA : DB)
    (hcur : m.current_db_file = fileOfSelector m.isLoc m.email)
    (hne : fileOfSelector loc2 em2 ≠ m.current_db_file)
    (hfresh : List.lookup (fileOfSelector loc2 em2) m.files = none)
    (hA : List.lookup m.current_db_file m.files = some dbA) :
    List.lookup m.current_db_file
        (applyOps (switch_database m loc2 em2).1 ops).files = some dbA
    ∧ List.lookup (fileOfSelector loc2 em2)
        (applyOps (switch_database m loc2 em2).1 ops).files
        = some (applyDBOps DB.empty ops)
    ∧ mgrLoadExpenses (applyOps (switch_database m loc2 em2).1 ops)
        = load_expenses (applyDBOps DB.empty ops)
    ∧ mgrLoadExpenses (switch_database
        (applyOps (switch_database m loc2 em2).1 ops) m.isLoc m.email).1
        = load_expenses dbA
    ∧ (switch_database m loc2 em2).2 = true := by
  have hm2cur : (switch_database m loc2 em2).1.current_db_file
      = fileOfSelector loc2 em2 := switch_current m loc2 em2
  have hm2A : List.lookup m.current_db_file (switch_database m loc2 em2).1.files
      = some dbA := by
    rw [switch_lookup_ne m loc2 em2 m.current_db_file (Ne.symm hne)]
    exact hA
  have hm2B : List.lookup (fileOfSelector loc2 em2)
      (switch_database m loc2 em2).1.files = some DB.empty := by
    rw [switch_lookup_self m loc2 em2, hfresh]
    rfl
  have hc1 : List.lookup m.current_db_file
      (applyOps (switch_database m loc2 em2).1 ops).files = some dbA := by
    rw [applyOps_lookup_ne _ ops m.current_db_file (by rw [hm2cur]; exact Ne.symm hne)]
    exact hm2A
  have hc2 : List.lookup (fileOfSelector loc2 em2)
      (applyOps (switch_database m loc2 em2).1 ops).files
      = some (applyDBOps DB.empty ops) := by
    have h := applyOps_lookup_self (switch_database m loc2 em2).1 ops
    rw [hm2cur] at h
    rw [h, hm2B]
    rfl
  refine ⟨hc1, hc2, ?_, ?_, rfl⟩
  · rw [mgrLoadExpenses, getFile, applyOps_current, hm2cur, hc2]
    rfl
  · rw [mgrLoadExpenses, getFile, switch_current, switch_lookup_self]
    have hAc : List.lookup (fileOfSelector m.isLoc m.email)
        (applyOps (switch_database m loc2 em2).1 ops).files = some dbA := by
      rw [← hcur]; exact hc1
    rw [hAc]
    rfl

/-- Closed witness for C8 (amended): start on the local file, switch to
the email-keyed file of `x`, add one expense there. -/
theorem C8_switch_isolates_amended_witness :
    ((initManager [] true none).current_db_file
        = fileOfSelector (initManager [] true none).isLoc (initManager [] true none).email
      ∧ fileOfSelector false (some "x") ≠ (initManager [] true none).current_db_file
      ∧ List.lookup (fileOfSelector false (some "x")) (initManager [] true none).files = none
      ∧ List.lookup (initManager [] true none).current_db_file
          (initManager [] true none).files = some DB.empty)
    ∧ (List.lookup (initManager [] true none).current_db_file
        (applyOps (switch_database (initManager [] true none) false (some "x")).1
          [Op.addE "Coffee" 5 "Food" ⟨2024, 1, 5⟩]).files = some DB.empty
      ∧ List.lookup (fileOfSelector false (some "x"))
          (applyOps (switch_database (initManager [] true none) false (some "x")).1
            [Op.addE "Coffee" 5 "Food" ⟨2024, 1, 5⟩]).files
          = some (applyDBOps DB.empty [Op.addE "Coffee" 5 "Food" ⟨2024, 1, 5⟩])
      ∧ mgrLoadExpenses (applyOps
            (switch_database (initManager [] true none) false (some "x")).1
            [Op.addE "Coffee" 5 "Food" ⟨2024, 1, 5⟩])
          = load_expenses (applyDBOps DB.empty [Op.addE "Coffee" 5 "Food" ⟨2024, 1, 5⟩])
      ∧ mgrLoadExpenses (switch_database
            (applyOps (switch_database (initManager [] true none) false (some "x")).1
              [Op.addE "Coffee" 5 "Food" ⟨2024, 1, 5⟩])
            (initManager [] true none).isLoc (initManager [] true none).email).1
          = load_expenses DB.empty
      ∧ (switch_database (initManager [] true none) false (some "x")).2 = true) :=
  ⟨⟨by decide, by decide, by decide, by decide⟩,
    C8_switch_isolates_amended (initManager [] true none)
      [Op.addE "Coffee" 5 "Food" ⟨2024, 1, 5⟩] false (some "x") DB.empty
      (by decide) (by decide) (by decide) (by decide)⟩

/-- C8 counterexample: the selectors `(is_local := False, email = "a@b")`
and `(is_local := False, email = "a.b")` are distinct, but sanitization
collides (`a_b`), so both denote the same backing file: an expense added
under the first selector is fully visible after switching to the second —
the claim fails for distinct selectors whose sanitized emails collide. -/
theorem C8_counterexample :
    ((false, some "a@b") : Bool × Option String) ≠ ((false, some "a.b"))
    ∧ sanitize_email (some "a@b") = sanitize_email (some "a.b")
    ∧ mgrLoadExpenses
        (switch_database
          (applyOp (switch_database (initManager [] true none) false (some "a@b")).1
            (Op.addE "Coffee" 5 "Food" ⟨2024, 1, 5⟩))
          false (some "a.b")).1
      = [⟨1, "Coffee", 5, "Food", ⟨2024, 1, 5⟩⟩] := by
  decide

/- ### C9: cleanup of the backup artifact -/

/-- C9 counterexample: when the SMTP session fails (authentication or
network error), `email_backup` returns `False` through its `except`
branch without running `os.remove`: the temporary JSON artifact is left
on disk, contradicting the claimed unconditional cleanup. -/
theorem C9_counterexample :
    email_backup [] "20240101_120000" false
      = (["expense_backup_20240101_120000.json"], false)
    ∧ backupFileName "20240101_120000" ∈ (email_backup [] "20240101_120000" false).1 := by
  decide

/-- C9 (amended): the temporary artifact is deleted before returning when
the send succeeds (and other files are untouched); on an SMTP failure the
operation returns `False` and the artifact remains on disk. -/
theorem C9_cleanup_amended (fs : List String) (ts : String) :
    ((email_backup fs ts true).2 = true
      ∧ backupFileName ts ∉ (email_backup fs ts true).1
      ∧ (∀ f : String, f ≠ backupFileName ts
          → (f ∈ (email_backup fs ts true).1 ↔ f ∈ fs)))
    ∧ ((email_backup fs ts false).2 = false
      ∧ backupFileName ts ∈ (email_backup fs ts false).1) := by
  refine ⟨⟨rfl, ?_, ?_⟩, rfl, ?_⟩
  · intro hmem
    simp only [email_backup, if_pos, removeFile, List.mem_filter,
      decide_eq_true_eq] at hmem
    exact hmem.2 rfl
  · intro f hf
    simp only [email_backup, if_pos, removeFile, List.mem_filter, decide_eq_true_eq]
    unfold createFile
    by_cases h : backupFileName ts ∈ fs
    · simp [h, hf]
    · simp only [h, if_neg, not_false_iff, List.mem_append, List.mem_singleton]
      constructor
      · rintro ⟨hm | hm, _⟩
        · exact hm
        · exact absurd hm hf
      · intro hm
        exact ⟨Or.inl hm, hf⟩
  · simp only [email_backup, if_neg, Bool.false_eq_true, not_false_iff]
    unfold createFile
    by_cases h : backupFileName ts ∈ fs
    · simp [h]
    · simp [h]

/-- Closed witness for C9 (amended) on a one-file disk and timestamp `t`:
the artifact is gone after a successful send and the other file survives. -/
theorem C9_cleanup_amended_witness :
    ("expenses.db" ≠ backupFileName "t")
    ∧ backupFileName "t" ∉ (email_backup ["expenses.db"] "t" true).1
    ∧ ("expenses.db" ∈ (email_backup ["expenses.db"] "t" true).1
        ↔ "expenses.db" ∈ ["expenses.db"]) :=
  ⟨by decide, (C9_cleanup_amended ["expenses.db"] "t").1.2.1,
    (C9_cleanup_amended ["expenses.db"] "t").1.2.2 "expenses.db" (by decide)⟩
